import Mathlib

/-!
A shallow embedding of the orchestration engine of `simpleagent`
(`src/simpleagent/graph.py`): the Plan → Route → (Tools | Write) loop run by
`AgentGraph`, together with the tool-registry normalisation `_normalize_tools`
and the built-in `dosleep` tool.

Modelling conventions, stated once here:

* Python values that flow through `json.loads` / `json.dumps` / f-strings are
  modelled by the inductive type `Json`.  JSON numbers are modelled by the
  integer fragment only (the engine's control flow never depends on
  non-integer numbers; on a non-integer literal the embedded parser fails,
  which makes the surrounding code take its documented fallback branch).
  String escapes `\uXXXX` are likewise not modelled.
* The Model Gateway (`self.llm.call_llm`) is an oracle `Nat → String`: the
  k-th completion the model returns during the run.  Every claim quantifies
  over all oracles, which covers every possible (also adversarial) model.
* Exceptions are modelled by `Except String`: a Python statement that can
  raise is embedded as a function returning `.error msg`.  `try/except`
  blocks are embedded by handling the corresponding value instead.
* Wall-clock time (the actual `asyncio.sleep` inside `dosleep`) is not
  modelled; only the value/exception behaviour of tools is.
-/

/-- Embedded Python/JSON values (`json.loads` results, tool arguments and
tool results).  Numbers carry the integer fragment only. -/
inductive Json where
  | obj (pairs : List (String × Json))
  | arr (items : List Json)
  | str (text : String)
  | num (value : Int)
  | bool (flag : Bool)
  | null

mutual
/-- Structural equality test on embedded values (Python `==` on the modelled
fragment), used only to state counterexamples decidably. -/
def jsonBeq (x y : Json) : Bool :=
  match x, y with
  | .obj a, .obj b => fieldsBeq a b
  | .arr a, .arr b => itemsBeq a b
  | .str a, .str b => a == b
  | .num a, .num b => a == b
  | .bool a, .bool b => a == b
  | .null, .null => true
  | _, _ => false
def itemsBeq (xs ys : List Json) : Bool :=
  match xs, ys with
  | v :: vr, w :: wr => jsonBeq v w && itemsBeq vr wr
  | [], [] => true
  | _, _ => false
def fieldsBeq (xs ys : List (String × Json)) : Bool :=
  match xs, ys with
  | (k1, v1) :: xr, (k2, v2) :: yr => k1 == k2 && jsonBeq v1 v2 && fieldsBeq xr yr
  | [], [] => true
  | _, _ => false
end

instance : BEq Json := ⟨jsonBeq⟩

/-- Lookup of a key in a parsed JSON object.  Python builds a `dict` from the
object members, so a duplicated key keeps the last value; lookup therefore
returns the last binding. -/
def lookupLast (fs : List (String × Json)) (k : String) : Option Json :=
  match fs with
  | [] => none
  | (k2, v) :: rest =>
    match lookupLast rest k with
    | some r => some r
    | none => if k2 = k then some v else none

/-- Python truthiness of an embedded value (`if x:` / `x or y`). -/
def pyTruthy : Json → Bool
  | .null => false
  | .bool b => b
  | .num n => !(n == 0)
  | .str s => !(s == "")
  | .arr es => !es.isEmpty
  | .obj fs => !fs.isEmpty

/-- Python `len(x)`: defined for sized values, raises `TypeError` for
`None`, booleans and numbers — exactly as CPython does. -/
def pyLen : Json → Except String Nat
  | .str s => .ok s.length
  | .arr es => .ok es.length
  | .obj fs => .ok fs.length
  | _ => .error "TypeError: len"

mutual
/-- Python `repr` of an embedded value, as used when a value is interpolated
inside a container (`str` of a dict shows elements with quotes). -/
def pyRepr : Json → String
  | .null => "None"
  | .bool true => "True"
  | .bool false => "False"
  | .num n => toString n
  | .str s => "\x27" ++ s ++ "\x27"
  | .arr es => "[" ++ pyReprList es ++ "]"
  | .obj fs => "\x7b" ++ pyReprFields fs ++ "\x7d"
def pyReprList : List Json → String
  | [] => ""
  | [e] => pyRepr e
  | e :: es => pyRepr e ++ ", " ++ pyReprList es
def pyReprFields : List (String × Json) → String
  | [] => ""
  | [(k, v)] => "\x27" ++ k ++ "\x27: " ++ pyRepr v
  | (k, v) :: fs => "\x27" ++ k ++ "\x27: " ++ pyRepr v ++ ", " ++ pyReprFields fs
end

/-- Python `str(x)` (used by f-string interpolation): identical to `repr`
except that a top-level string shows without quotes. -/
def pyStr : Json → String
  | .str s => s
  | v => pyRepr v

mutual
/-- Model of `json.dumps`.  The source serialises with `indent=2`; the claims
never depend on inter-token whitespace, so the embedding uses the compact
`", "`/`": "` separators.  Key order of the underlying dict is kept, as in
CPython. -/
def dumps : Json → String
  | .null => "null"
  | .bool true => "true"
  | .bool false => "false"
  | .num n => toString n
  | .str s => "\"" ++ s ++ "\""
  | .arr es => "[" ++ dumpsList es ++ "]"
  | .obj fs => "\x7b" ++ dumpsFields fs ++ "\x7d"
def dumpsList : List Json → String
  | [] => ""
  | [e] => dumps e
  | e :: es => dumps e ++ ", " ++ dumpsList es
def dumpsFields : List (String × Json) → String
  | [] => ""
  | [(k, v)] => "\"" ++ k ++ "\": " ++ dumps v
  | (k, v) :: fs => "\"" ++ k ++ "\": " ++ dumps v ++ ", " ++ dumpsFields fs
end

/-- JSON/Python whitespace recognised by `json.loads` and `str.strip`. -/
def isPyWs : Char → Bool
  | ' ' => true
  | '\t' => true
  | '\n' => true
  | '\r' => true
  | _ => false

/-- Drop leading JSON whitespace. -/
def skipWs (cs : List Char) : List Char := cs.dropWhile isPyWs

/-- Whitespace stripped by Python `str.strip()` (ASCII fragment; wider than
the four characters JSON allows). -/
def isStripWs : Char → Bool
  | ' ' => true
  | '\t' => true
  | '\n' => true
  | '\r' => true
  | '\x0b' => true
  | '\x0c' => true
  | _ => false

/-- Python `str.strip()`. -/
def pyStrip (s : String) : String :=
  String.mk (((s.data.dropWhile isStripWs).reverse.dropWhile isStripWs).reverse)

/-- Python `str.lower()` (ASCII, which is all the router compares). -/
def pyLower (s : String) : String := String.mk (s.data.map Char.toLower)

/-- Python substring test `needle in hay`. -/
def strContains (hay needle : String) : Bool :=
  hay.data.tails.any (fun t => needle.data.isPrefixOf t)

/-- Index of the first occurrence of a character, if any. -/
def findIdxA (cs : List Char) (c : Char) : Option Nat :=
  match cs with
  | [] => none
  | x :: xs => if x = c then some 0 else (findIdxA xs c).map (· + 1)

/-- Index of the last occurrence of a character, if any. -/
def rfindIdxA (cs : List Char) (c : Char) : Option Nat :=
  match cs with
  | [] => none
  | x :: xs =>
    match rfindIdxA xs c with
    | some i => some (i + 1)
    | none => if x = c then some 0 else none

/-- Python `str.find`: index of the first occurrence or `-1`. -/
def pyFind (s : String) (c : Char) : Int :=
  match findIdxA s.data c with
  | some i => i
  | none => -1

/-- Python `str.rfind`: index of the last occurrence or `-1`. -/
def pyRfind (s : String) (c : Char) : Int :=
  match rfindIdxA s.data c with
  | some i => i
  | none => -1

/-- Python slice `s[a:b]` (step 1) on a character list: negative indices
count from the end, then both bounds clamp to `[0, len]`. -/
def pySliceL (cs : List Char) (a b : Int) : List Char :=
  let n : Int := cs.length
  let a2 : Int := if a < 0 then max (a + n) 0 else min a n
  let b2 : Int := if b < 0 then max (b + n) 0 else min b n
  (cs.drop a2.toNat).take (b2 - a2).toNat

/-- Python slice `s[a:b]` on strings. -/
def pySlice (s : String) (a b : Int) : String := String.mk (pySliceL s.data a b)

/-- The span `js[js.find("\x7b") : js.rfind("\x7d")+1]` that both
`_node_plan` and `_node_tools` cut out of the raw model output before
`json.loads`. -/
def extractSpan (js : String) : String :=
  pySlice js (pyFind js '{') (pyRfind js '}' + 1)

/-- Decode one escape character of a JSON string literal (`\u` is outside
the modelled fragment). -/
def escChar (e : Char) : Option Char :=
  if e = 'n' then some '\n'
  else if e = 't' then some '\t'
  else if e = 'r' then some '\r'
  else if e = 'b' then some (Char.ofNat 8)
  else if e = 'f' then some (Char.ofNat 12)
  else if e = '"' || e = '\\' || e = '/' then some e
  else none

/-- Parse the body of a JSON string literal (the opening quote already
consumed); returns the decoded string and the rest of the input. -/
def parseStringBody : List Char → Option (String × List Char)
  | '"' :: r => some ("", r)
  | '\\' :: e :: r =>
    match escChar e with
    | some c => (parseStringBody r).map (fun p => (String.mk (c :: p.1.data), p.2))
    | none => none
  | c :: r => (parseStringBody r).map (fun p => (String.mk (c :: p.1.data), p.2))
  | [] => none

/-- Is `c` an ASCII digit. -/
def isDigitC (c : Char) : Bool := 48 ≤ c.toNat && c.toNat ≤ 57

/-- Accumulate decimal digits. -/
def takeDigits (acc : Nat) : List Char → Nat × List Char
  | c :: r => if isDigitC c then takeDigits (acc * 10 + (c.toNat - 48)) r else (acc, c :: r)
  | [] => (acc, [])

/-- Parse one or more decimal digits. -/
def parseDigits (cs : List Char) : Option (Nat × List Char) :=
  match cs with
  | c :: r => if isDigitC c then some (takeDigits (c.toNat - 48) r) else none
  | [] => none

/-- Parse the tail of the keyword `true`. -/
def parseTrueKw (cs : List Char) : Option (Json × List Char) :=
  match cs with
  | 'r' :: 'u' :: 'e' :: r2 => some (Json.bool true, r2)
  | _ => none

/-- Parse the tail of the keyword `false`. -/
def parseFalseKw (cs : List Char) : Option (Json × List Char) :=
  match cs with
  | 'a' :: 'l' :: 's' :: 'e' :: r2 => some (Json.bool false, r2)
  | _ => none

/-- Parse the tail of the keyword `null`. -/
def parseNullKw (cs : List Char) : Option (Json × List Char) :=
  match cs with
  | 'u' :: 'l' :: 'l' :: r2 => some (Json.null, r2)
  | _ => none

/-- Parse the digits of a negative integer literal (after the minus sign). -/
def parseNegNum (r : List Char) : Option (Json × List Char) :=
  match parseDigits r with
  | some (m, r2) => some (Json.num (-(m : Int)), r2)
  | none => none

/-- Parse a non-negative integer literal starting at `c`. -/
def parsePosNum (c : Char) (r : List Char) : Option (Json × List Char) :=
  match parseDigits (c :: r) with
  | some (m, r2) => some (Json.num (m : Int), r2)
  | none => none

mutual
/-- Recursive-descent JSON value parser.  `fuel` is a structural-recursion
device only; `parseJson` supplies more fuel than any input can consume. -/
def parseValue (fuel : Nat) (cs : List Char) : Option (Json × List Char) :=
  match fuel with
  | 0 => none
  | f + 1 =>
    match cs with
    | [] => none
    | c :: r =>
      if c = '{' then (parseObjBody f r).map (fun p => (Json.obj p.1, p.2))
      else if c = '[' then (parseArrBody f r).map (fun p => (Json.arr p.1, p.2))
      else if c = '"' then (parseStringBody r).map (fun p => (Json.str p.1, p.2))
      else if c = 't' then parseTrueKw r
      else if c = 'f' then parseFalseKw r
      else if c = 'n' then parseNullKw r
      else if c = '-' then parseNegNum r
      else if isDigitC c then parsePosNum c r
      else none

/-- Parse an object body (after `\x7b`): either an immediate close or a
non-empty member list. -/
def parseObjBody (fuel : Nat) (cs : List Char) : Option (List (String × Json) × List Char) :=
  match fuel, skipWs cs with
  | 0, _ => none
  | _ + 1, '}' :: r => some ([], r)
  | f + 1, cs2 => parsePairs f cs2

/-- Parse a non-empty `"key": value` member list including the closing
brace. -/
def parsePairs (fuel : Nat) (cs : List Char) : Option (List (String × Json) × List Char) :=
  match fuel, cs with
  | 0, _ => none
  | f + 1, '"' :: r =>
      match parseStringBody r with
      | some (k, r2) =>
        match skipWs r2 with
        | ':' :: r3 =>
          match parseValue f (skipWs r3) with
          | some (v, r4) =>
            match skipWs r4 with
            | ',' :: r5 =>
              match parsePairs f (skipWs r5) with
              | some (fs, r6) => some ((k, v) :: fs, r6)
              | none => none
            | '}' :: r5 => some ([(k, v)], r5)
            | _ => none
          | none => none
        | _ => none
      | none => none
  | _, _ => none

/-- Parse an array body (after `[`): either an immediate close or a
non-empty item list. -/
def parseArrBody (fuel : Nat) (cs : List Char) : Option (List Json × List Char) :=
  match fuel with
  | 0 => none
  | f + 1 =>
    match skipWs cs with
    | ']' :: r => some ([], r)
    | cs2 => parseItems f cs2

/-- Parse a non-empty array item list including the closing bracket. -/
def parseItems (fuel : Nat) (cs : List Char) : Option (List Json × List Char) :=
  match fuel with
  | 0 => none
  | f + 1 =>
    match parseValue f cs with
    | some (v, r) =>
      match skipWs r with
      | ',' :: r2 =>
        match parseItems f (skipWs r2) with
        | some (vs, r3) => some (v :: vs, r3)
        | none => none
      | ']' :: r2 => some ([v], r2)
      | _ => none
    | none => none
end

/-- Model of `json.loads`: parse exactly one JSON document, allowing
surrounding whitespace; `none` models a raised `JSONDecodeError`. -/
def parseJson (s : String) : Option Json :=
  match parseValue (3 * s.data.length + 16) (skipWs s.data) with
  | some (v, rest) => if skipWs rest = [] then some v else none
  | none => none

example : parseJson "\x7b\"tool\": \"dosleep\", \"args\": \x7b\"seconds\": 1\x7d\x7d" =
    some (Json.obj [("tool", Json.str "dosleep"), ("args", Json.obj [("seconds", Json.num 1)])]) := rfl

example : parseJson " [1, -2, true, null, \"x\"] " =
    some (Json.arr [Json.num 1, Json.num (-2), Json.bool true, Json.null, Json.str "x"]) := rfl

example : parseJson "garbage" = none := rfl

example : extractSpan "noise \x7b\"a\": 1\x7d trailing" = "\x7b\"a\": 1\x7d" := rfl

example : extractSpan "no braces at all" = "" := rfl

/-- The `GraphState` TypedDict of `graph.py`, with the types the engine
keeps in it (`run` initialises every field).  `scratch` holds raw Python
values: every entry the engine itself appends is a string (`Json.str`), but
a plain callable's dict result can replace the transcript with an arbitrary
list (see `rawScratchConcat`), so the field is kept at the raw level. -/
structure GraphState where
  task : String
  plan : String
  scratch : List Json
  evidence : List String
  result : String
  step : Nat
  done : Bool

/-- A LangGraph node return value: a partial state update, merged into the
running `GraphState` key by key. -/
structure Patch where
  task : Option String := none
  plan : Option String := none
  scratch : Option (List Json) := none
  evidence : Option (List String) := none
  result : Option String := none
  step : Option Nat := none
  done : Option Bool := none

/-- LangGraph's merge of a node's returned dict into the state. -/
def applyPatch (s : GraphState) (p : Patch) : GraphState :=
  { task := p.task.getD s.task
    plan := p.plan.getD s.plan
    scratch := p.scratch.getD s.scratch
    evidence := p.evidence.getD s.evidence
    result := p.result.getD s.result
    step := p.step.getD s.step
    done := p.done.getD s.done }

/-- The invocation shape of a tool handle, as probed by `_node_tools`:
`hasattr(t, "ainvoke")`, else `hasattr(t, "invoke")`, else `callable(t)`,
else nothing. -/
inductive ToolShape where
  | ainvokable
  | invokable
  | plainCallable
  | other
deriving Repr, DecidableEq

/-- Outcome of invoking a tool with its argument map: a returned value or a
raised exception. -/
inductive CallResult where
  | ok (r : Json)
  | raise (msg : String)

/-- A tool handle.  `nameAttr` models `getattr(t, "name", None)`,
`dunderName` models `getattr(t, "__name__", None)`.  `behavior` gives the
value returned (or exception raised) when the tool is invoked with an
argument map; the source's two plain-callable calling conventions
(`t(args, state)` and keyword expansion after a `TypeError`) both feed the
same arguments and are collapsed into this single function, as is the
(unused) `state` parameter — no claim distinguishes them. -/
structure Tool where
  nameAttr : Option String := none
  dunderName : Option String := none
  shape : ToolShape
  behavior : Json → CallResult

/-- Python string-`or`: the left value unless it is falsy (`None` or empty). -/
def pyOrS (o : Option String) (d : String) : String :=
  match o with
  | some s => if s = "" then d else s
  | none => d

/-- The registry name of the i-th list entry in `_normalize_tools`:
`getattr(t, "name", None) or getattr(t, "__name__", None) or "tool_i"`. -/
def toolRegName (t : Tool) (i : Nat) : String :=
  pyOrS t.nameAttr (pyOrS t.dunderName ("tool_" ++ toString i))

/-- Python dict assignment `out[k] = v` on an association list with unique
keys: replace in place if present, append otherwise. -/
def dictInsert (m : List (String × Tool)) (k : String) (v : Tool) : List (String × Tool) :=
  match m with
  | [] => [(k, v)]
  | (k2, v2) :: rest => if k2 = k then (k, v) :: rest else (k2, v2) :: dictInsert rest k v

/-- Python dict lookup on the association list. -/
def dictLookup (m : List (String × Tool)) (n : String) : Option Tool :=
  match m with
  | [] => none
  | (k, v) :: rest => if k = n then some v else dictLookup rest n

/-- The `for i, t in enumerate(tools_param): out[str(name)] = t` loop of
`_normalize_tools`. -/
def normListAux (out : List (String × Tool)) (i : Nat) : List Tool → List (String × Tool)
  | [] => out
  | t :: ts => normListAux (dictInsert out (toolRegName t i) t) (i + 1) ts

/-- The argument `_normalize_tools` accepts (`None`, a dict, a list/tuple,
or a single handle). -/
inductive ToolsParam where
  | none_
  | dict (m : List (String × Tool))
  | list (ts : List Tool)
  | single (t : Tool)

/-- `graph.py` `_normalize_tools`: accept dict, list/tuple or a single
handle and return a name-keyed mapping. -/
def _normalize_tools (p : ToolsParam) : List (String × Tool) :=
  match p with
  | .none_ => []
  | .dict m => m
  | .list ts => normListAux [] 0 ts
  | .single t => [(pyOrS t.nameAttr (pyOrS t.dunderName "tool"), t)]

/-- The built-in `dosleep` tool: an async LangChain tool (`.name` set by the
decorator, invoked through `ainvoke`).  Argument validation failure raises;
sleeping itself is not modelled, only the returned confirmation string. -/
def dosleepTool : Tool :=
  { nameAttr := some "dosleep"
    dunderName := none
    shape := .ainvokable
    behavior := fun args =>
      match args with
      | Json.obj fs =>
        match lookupLast fs "seconds" with
        | some (Json.num n) => .ok (Json.str ("Slept for " ++ toString n ++ " seconds"))
        | _ => .raise "ValidationError"
      | _ => .raise "ValidationError" }

/-- The fixed fallback plan of `_node_plan`. -/
def defaultPlanJson : Json :=
  Json.obj [("subtasks", Json.arr [Json.str "write", Json.str "tools"]),
            ("success_criteria", Json.arr [Json.str "clear answer"])]

/-- `_node_plan`: parse the first-brace/last-brace span of the model output,
fall back to the default plan on parse failure, serialise, append the PLAN
scratch entry.  The trailing debug log interpolates
`len(plan.get("subtasks", []))`, which raises `AttributeError` when the
parsed plan is not an object and `TypeError` when its `subtasks` value has
no `len` — both embedded as `.error`. -/
def _node_plan (resp : String) (s : GraphState) : Except String Patch :=
  let plan := (parseJson (extractSpan resp)).getD defaultPlanJson
  let plan_str := dumps plan
  let scratch := s.scratch ++ [Json.str ("PLAN:\n" ++ plan_str)]
  match plan with
  | Json.obj fs =>
    match pyLen ((lookupLast fs "subtasks").getD (Json.arr [])) with
    | .ok _ => .ok { plan := some plan_str, scratch := some scratch }
    | .error e => .error e
  | _ => .error "AttributeError: get"

/-- The three conditional-edge targets the router can choose. -/
inductive RouteTarget where
  | tools
  | write
  | end_
deriving Repr, DecidableEq

/-- `_node_route_decider`: one model completion, lowercased; substring match
on "tool" selects the tools node, anything else selects write. -/
def _node_route_decider (resp : String) : RouteTarget :=
  if strContains (pyLower resp) "tool" then .tools else .write

/-- The `router` conditional-edge function: terminal states go to END, a
step count at or above 8 forces write, otherwise the model decides. -/
def router (resp : String) (s : GraphState) : RouteTarget :=
  if s.done || !(s.result == "") then .end_
  else if 8 ≤ s.step then .write
  else _node_route_decider resp

/-- Does the router consult the model in state `s` (used to keep the oracle
call counter aligned with the Python call sequence)? -/
def routeConsults (s : GraphState) : Bool :=
  if s.done || !(s.result == "") then false
  else if 8 ≤ s.step then false
  else true

/-- `_node_write`: one model completion becomes the result, and a DRAFT
scratch entry is appended. -/
def _node_write (resp : String) (s : GraphState) : Patch :=
  { result := some resp, scratch := some (s.scratch ++ [Json.str ("DRAFT:\n" ++ resp)]) }

/-- Decode a list of strings from a tool's dict result. -/
def decodeStrs : List Json → Option (List String)
  | [] => some []
  | .str s :: rest => (decodeStrs rest).map (fun l => s :: l)
  | _ => none

/-- Decode a recognised list-of-strings state field. -/
def decodeStrList : Json → Option (List String)
  | .arr es => decodeStrs es
  | _ => none

/-- The value a plain callable's dict result leaves in a string-typed state
field.  The engine reads `result` (and `done`) only through Python
truthiness and returns `result` opaquely from `run`; storing the `str()`
rendering of a truthy value and `""` for a falsy one preserves every such
observation.  (A falsy non-string, e.g. `0`, is returned by CPython's
`run()` as that raw falsy value where the model returns `""` — both are
"no result" at the Session Driver boundary.) -/
def asStateStr (v : Json) : String := if pyTruthy v then pyStr v else ""

/-- `out = dict(res)` for a plain callable's dict result, followed by
LangGraph's merge into the state — restricted to the keys the node does not
overwrite: `out["scratch"]` and `out["step"]` are reassigned at lines
178-179 before the return, so the dict's own values for them never reach
the state.  `done` is stored as its truthiness and the string fields as
their truthiness-preserving rendering (`asStateStr`), which is
observationally equivalent for every read the engine performs.  An
ill-typed `evidence` value is outside the modelled fragment (the program
would fault on it only later, inside prompt interpolation, which the
oracle abstraction does not represent); unknown keys, which LangGraph
rejects, are likewise outside it. -/
def patchOfObj (fs : List (String × Json)) : Patch :=
  { task := (lookupLast fs "task").map asStateStr
    plan := (lookupLast fs "plan").map asStateStr
    evidence := (lookupLast fs "evidence").bind decodeStrList
    result := (lookupLast fs "result").map asStateStr
    done := (lookupLast fs "done").map pyTruthy }

/-- The `TOOL-CALL` transcript entry for a non-dict result. -/
def toolCallEntry (n : String) (args : Json) (resStr : String) : String :=
  "TOOL-CALL: " ++ n ++ "(" ++ pyStr args ++ ") -> " ++ resStr

/-- The `TOOL-ERROR` transcript entry for a caught invocation exception. -/
def toolErrEntry (n : String) (args : Json) (msg : String) : String :=
  "TOOL-ERROR: " ++ n ++ "(" ++ pyStr args ++ ") -> " ++ msg

/-- The `STEP-k: Considering tool ...` transcript entry. -/
def stepEntry (step : Nat) (n : String) : String :=
  "STEP-" ++ toString step ++ ": Considering tool \x27" ++ n ++ "\x27"

/-- The dict-result transcript update of lines 176-180: Python evaluates
`(res.get("scratch") or scratch) + [entry]` on the RAW scratch value of the
dict.  A falsy value (absent, `None`, `[]`, `""`, `0`, `False`) falls back
to the node's accumulated transcript, which is always a list; a truthy list
replaces the transcript (its elements need not be strings); and any truthy
non-list makes the `+` raise `TypeError`, which the `except` at line 187
turns into a TOOL-ERROR entry.  The exact `TypeError` message text is
abstracted to a constant. -/
def rawScratchConcat (rv : Json) (acc : List Json) (entry : String) :
    Except String (List Json) :=
  if pyTruthy rv then
    match rv with
    | Json.arr items => .ok (items ++ [Json.str entry])
    | _ => .error "TypeError: can only concatenate list"
  else .ok (acc ++ [Json.str entry])

/-- The `TOOL-CALL` transcript entry recorded for a dict result. -/
def dictCallEntry (n : String) (args : Json) : String :=
  "TOOL-CALL: " ++ n ++ "(" ++ pyStr args ++ ") -> dict result"

/-- Lines 145-189 of `graph.py`: invoke a resolved tool and build the node's
return dict.  `scratch` is the transcript accumulated so far in the node
(state scratch plus the STEP entry), `step` the already-incremented counter.
Async (`ainvoke`) and sync (`invoke`) handles record the stringified result;
a plain callable's dict result becomes the return dict itself with `scratch`
and `step` overwritten — the transcript update runs on the raw scratch value
(`rawScratchConcat`), whose `TypeError` on a truthy non-list is caught by
the `except` at line 187 like any other invocation exception and recorded
as a TOOL-ERROR entry with no merge; a non-callable handle records an
invalid-tool-type TOOL-ERROR. -/
def invokeTool (t : Tool) (n : String) (args : Json) (scratch : List Json) (step : Nat) : Patch :=
  match t.shape with
  | .ainvokable =>
    match t.behavior args with
    | .ok r =>
      { scratch := some (scratch ++ [Json.str (toolCallEntry n args (pyStr r))]), step := some step }
    | .raise msg =>
      { scratch := some (scratch ++ [Json.str (toolErrEntry n args msg)]), step := some step }
  | .invokable =>
    match t.behavior args with
    | .ok r =>
      { scratch := some (scratch ++ [Json.str (toolCallEntry n args (pyStr r))]), step := some step }
    | .raise msg =>
      { scratch := some (scratch ++ [Json.str (toolErrEntry n args msg)]), step := some step }
  | .plainCallable =>
    match t.behavior args with
    | .ok (Json.obj fs) =>
      match rawScratchConcat ((lookupLast fs "scratch").getD Json.null) scratch
          (dictCallEntry n args) with
      | .ok l => { patchOfObj fs with scratch := some l, step := some step }
      | .error e =>
        { scratch := some (scratch ++ [Json.str (toolErrEntry n args e)]), step := some step }
    | .ok r =>
      { scratch := some (scratch ++ [Json.str (toolCallEntry n args (pyStr r))]), step := some step }
    | .raise msg =>
      { scratch := some (scratch ++ [Json.str (toolErrEntry n args msg)]), step := some step }
  | .other =>
    { scratch := some (scratch ++ [Json.str ("TOOL-ERROR: " ++ n ++ " invalid tool type")])
      step := some step }

/-- The fallback tool spec used when the model output fails to parse. -/
def specFallback : Json := Json.obj [("tool", Json.str "none"), ("args", Json.obj [])]

/-- The body of `_node_tools` after the MAX_STEPS guard: parse the tool
spec, extract `tool`/`args` (`spec.get` raises `AttributeError` on a
non-dict — unreachable, see `nodeTools_ok`), record the STEP entry, then
either bail out (`done=true`) on an unknown/none tool or invoke the
resolved tool. -/
def _node_tools_main (resp : String) (registry : List (String × Tool)) (s : GraphState)
    (step : Nat) : Except String Patch :=
  match (parseJson (extractSpan resp)).getD specFallback with
  | Json.obj fs =>
    let toolVal := (lookupLast fs "tool").getD Json.null
    let tool_name := pyStrip (if pyTruthy toolVal then pyStr toolVal else "none")
    let argsVal := (lookupLast fs "args").getD Json.null
    let args := if pyTruthy argsVal then argsVal else Json.obj []
    let scratch := s.scratch ++ [Json.str (stepEntry step tool_name)]
    match (if tool_name = "none" then none else dictLookup registry tool_name) with
    | none =>
      .ok { scratch := some (scratch ++
              [Json.str ("TOOL: none or unavailable (" ++ tool_name ++ "). Moving to write.")])
            done := some true, step := some step }
    | some t => .ok (invokeTool t tool_name args scratch step)
  | _ => .error "AttributeError: get"

/-- `_node_tools`: increment the step counter, force completion past the
hard ceiling of 10, otherwise run the tool-selection/invocation body. -/
def _node_tools (resp : String) (registry : List (String × Tool)) (s : GraphState) :
    Except String Patch :=
  let step := s.step + 1
  if 10 < step then
    .ok { scratch := some (s.scratch ++ [Json.str "MAX_STEPS: Forcing completion"])
          done := some true, step := some step }
  else
    _node_tools_main resp registry s step

/-- LangGraph's default super-step budget for `ainvoke` (recursion_limit).
The engine's router guard keeps every run far below it; `loopNoLimitHit`
proves the sentinel is unreachable, so the exact step-counting convention
is immaterial. -/
def recursionLimit : Nat := 25

/-- The compiled graph's loop from the `route` node onwards, driven by the
conditional `router` edge: END stops, `write` runs the write node and stops
(edge write → END), `tools` runs the tools node and loops back to `route`
(edge tools → route).  Returns the final state (or the embedded exception)
together with the number of entries into the Tools node.  `oracle k` is the
next model completion; the router consumes one completion exactly when it
consults the decider. -/
def runLoopF : Nat → (Nat → String) → List (String × Tool) → Nat → GraphState →
    (Except String GraphState) × Nat
  | 0, _, _, _, _ => (.error "GraphRecursionError", 0)
  | fuel + 1, oracle, registry, k, s =>
    match router (oracle k) s with
    | .end_ => (.ok s, 0)
    | .write =>
      (.ok (applyPatch s (_node_write (oracle (k + (if routeConsults s then 1 else 0))) s)), 0)
    | .tools =>
      match _node_tools (oracle (k + 1)) registry s with
      | .error e => (.error e, 1)
      | .ok p =>
        let r := runLoopF fuel oracle registry (k + 2) (applyPatch s p)
        (r.1, r.2 + 1)

/-- The fresh per-run state built at the top of `run`. -/
def initState (task : String) : GraphState :=
  { task := task, plan := "", scratch := [], evidence := [], result := "", step := 0, done := false }

/-- `run(task)` with Tools-entry instrumentation: build the registry from
the fetched MCP tools plus the built-in `dosleep` (list form), run the plan
node, then the route loop.  The second component counts Tools-node
entries. -/
def runT (oracle : Nat → String) (mcpTools : List Tool) (task : String) :
    (Except String GraphState) × Nat :=
  let registry := _normalize_tools (ToolsParam.list (mcpTools ++ [dosleepTool]))
  match _node_plan (oracle 0) (initState task) with
  | .error e => (.error e, 0)
  | .ok p => runLoopF recursionLimit oracle registry 1 (applyPatch (initState task) p)

/-- `run(task)`: the final state's result string (`out.get("result", "")`),
or the uncaught exception. -/
def run (oracle : Nat → String) (mcpTools : List Tool) (task : String) : Except String String :=
  (runT oracle mcpTools task).1.map GraphState.result

lemma findIdxA_get {cs : List Char} {c : Char} {i : Nat} (h : findIdxA cs c = some i) :
    cs.get? i = some c := by
  induction cs generalizing i with
  | nil => simp [findIdxA] at h
  | cons x xs ih =>
    rw [findIdxA] at h
    by_cases hx : x = c
    · rw [if_pos hx] at h
      cases h
      simpa using hx
    · rw [if_neg hx] at h
      rcases Option.map_eq_some'.mp h with ⟨j, hj, rfl⟩
      simpa using ih hj

lemma rfindIdxA_get {cs : List Char} {c : Char} {i : Nat} (h : rfindIdxA cs c = some i) :
    cs.get? i = some c := by
  induction cs generalizing i with
  | nil => simp [rfindIdxA] at h
  | cons x xs ih =>
    rw [rfindIdxA] at h
    cases hr : rfindIdxA xs c with
    | some j =>
      rw [hr] at h
      cases h
      simpa using ih hr
    | none =>
      rw [hr] at h
      by_cases hx : x = c
      · rw [if_pos hx] at h
        cases h
        simpa using hx
      · rw [if_neg hx] at h
        cases h

lemma get?_some_lt {cs : List Char} {i : Nat} {c : Char} (h : cs.get? i = some c) :
    i < cs.length :=
  (List.get?_eq_some.mp h).1

lemma drop_cons_of_get? {cs : List Char} {i : Nat} {c : Char} (h : cs.get? i = some c) :
    cs.drop i = c :: cs.drop (i + 1) := by
  induction cs generalizing i with
  | nil => cases h
  | cons a l ihl =>
    cases i with
    | zero =>
      cases h
      rfl
    | succ k => exact ihl h

lemma take_cons_cases {c : Char} (K : Nat) (l : List Char) (P : List Char → Prop)
    (h0 : P []) (h1 : ∀ r, P (c :: r)) : P (List.take K (c :: l)) := by
  cases K with
  | zero => exact h0
  | succ m => exact h1 _

lemma take_cons_nil_cases {c : Char} (K : Nat) (P : List Char → Prop)
    (h0 : P []) (h1 : P [c]) : P (List.take K (c :: [])) := by
  cases K with
  | zero => exact h0
  | succ m => simpa using h1

lemma extractSpan_shape (js : String) :
    (extractSpan js).data = [] ∨ (extractSpan js).data = ['}'] ∨
      ∃ r, (extractSpan js).data = '{' :: r := by
  have hdata : (extractSpan js).data
      = pySliceL js.data (pyFind js '{') (pyRfind js '}' + 1) := rfl
  rw [hdata]
  rw [pySliceL]
  cases hf : findIdxA js.data '{' with
  | some i =>
    have hget := findIdxA_get hf
    have hlt := get?_some_lt hget
    have ha : pyFind js '{' = (i : Int) := by rw [pyFind, hf]
    rw [ha]
    rw [if_neg (by omega : ¬((i : Int) < 0))]
    have hmin : (min (i : Int) ((js.data.length : Nat) : Int)).toNat = i := by omega
    rw [hmin]
    rw [drop_cons_of_get? hget]
    exact take_cons_cases _ _ (fun x => x = [] ∨ x = ['}'] ∨ ∃ r, x = '{' :: r)
      (Or.inl rfl) (fun r => Or.inr (Or.inr ⟨r, rfl⟩))
  | none =>
    have ha : pyFind js '{' = (-1 : Int) := by rw [pyFind, hf]
    rw [ha]
    rw [if_pos (by omega : (-1 : Int) < 0)]
    rcases eq_or_ne js.data [] with hnil | hnil
    · left
      rw [hnil]
      simp
    · have hlen : 1 ≤ js.data.length := List.length_pos.mpr hnil
      have hmax : (max ((-1 : Int) + (js.data.length : Int)) 0).toNat = js.data.length - 1 := by
        omega
      rw [hmax]
      cases hr : rfindIdxA js.data '}' with
      | none =>
        have hb : pyRfind js '}' + 1 = (0 : Int) := by rw [pyRfind, hr]; rfl
        rw [hb, if_neg (by omega : ¬((0 : Int) < 0))]
        have hcnt : (min (0 : Int) (js.data.length : Int)
            - max ((-1 : Int) + (js.data.length : Int)) 0).toNat = 0 := by omega
        rw [hcnt]
        left
        simp
      | some j =>
        have hgetj := rfindIdxA_get hr
        have hjlt := get?_some_lt hgetj
        have hb : pyRfind js '}' + 1 = ((j : Int) + 1) := by rw [pyRfind, hr]
        rw [hb, if_neg (by omega : ¬((j : Int) + 1 < 0))]
        rcases (by omega : j + 1 ≤ js.data.length - 1 ∨ j = js.data.length - 1) with hj | hj
        · have hcnt : (min ((j : Int) + 1) (js.data.length : Int)
              - max ((-1 : Int) + (js.data.length : Int)) 0).toNat = 0 := by omega
          rw [hcnt]
          left
          simp
        · have hdrop : js.data.drop (js.data.length - 1)
              = '}' :: js.data.drop (js.data.length - 1 + 1) := by
            rw [← hj]
            exact drop_cons_of_get? hgetj
          have hnil2 : js.data.drop (js.data.length - 1 + 1) = [] :=
            List.drop_eq_nil_of_le (by omega)
          rw [hdrop, hnil2]
          exact take_cons_nil_cases _ (fun x => x = [] ∨ x = ['}'] ∨ ∃ r, x = '{' :: r)
            (Or.inl rfl) (Or.inr (Or.inl rfl))

lemma parseValue_brace {f : Nat} {r : List Char} {v : Json} {rest : List Char}
    (h : parseValue f ('{' :: r) = some (v, rest)) : ∃ fs, v = Json.obj fs := by
  cases f with
  | zero => simp [parseValue] at h
  | succ f =>
    simp only [parseValue, if_pos rfl] at h
    rcases Option.map_eq_some'.mp h with ⟨p, hp, heq⟩
    exact ⟨p.1, by cases heq; rfl⟩

lemma parseJson_brace {s : String} {r : List Char} (hs : s.data = '{' :: r) {v : Json}
    (h : parseJson s = some v) : ∃ fs, v = Json.obj fs := by
  rw [parseJson, hs] at h
  have hskip : skipWs ('{' :: r) = '{' :: r := by
    rw [skipWs, List.dropWhile_cons]
    simp [isPyWs]
  rw [hskip] at h
  cases hv : parseValue (3 * ('{' :: r).length + 16) ('{' :: r) with
  | none => rw [hv] at h; simp at h
  | some p =>
    obtain ⟨w, rest2⟩ := p
    rw [hv] at h
    have h2 : (if skipWs rest2 = [] then some w else none) = some v := h
    by_cases hre : skipWs rest2 = []
    · rw [if_pos hre] at h2
      cases h2
      exact parseValue_brace hv
    · rw [if_neg hre] at h2
      cases h2

lemma parseJson_empty : parseJson (String.mk []) = none := rfl

lemma parseJson_closeBrace : parseJson (String.mk ['}']) = none := rfl

/-- Whatever the raw model output, the value fed to `spec.get` in
`_node_tools` (parsed span or fallback) is a JSON object: the extracted
span, when it parses at all, always denotes an object. -/
lemma specParsed_obj (resp : String) :
    ∃ fs, (parseJson (extractSpan resp)).getD specFallback = Json.obj fs := by
  cases hp : parseJson (extractSpan resp) with
  | none => exact ⟨_, by rw [Option.getD]; rfl⟩
  | some v =>
    have hv : ∃ fs, v = Json.obj fs := by
      rcases extractSpan_shape resp with h | h | ⟨r, h⟩
      · exfalso
        have he : extractSpan resp = String.mk [] := by
          have : extractSpan resp = String.mk (extractSpan resp).data := rfl
          rw [this, h]
        rw [he, parseJson_empty] at hp
        cases hp
      · exfalso
        have he : extractSpan resp = String.mk ['}'] := by
          have : extractSpan resp = String.mk (extractSpan resp).data := rfl
          rw [this, h]
        rw [he, parseJson_closeBrace] at hp
        cases hp
      · exact parseJson_brace h hp
    rcases hv with ⟨fs, rfl⟩
    exact ⟨fs, rfl⟩

/-- Same fact for the plan node: the parsed-or-default plan is an object. -/
lemma planParsed_obj (resp : String) :
    ∃ fs, (parseJson (extractSpan resp)).getD defaultPlanJson = Json.obj fs := by
  cases hp : parseJson (extractSpan resp) with
  | none => exact ⟨_, by rw [Option.getD]; rfl⟩
  | some v =>
    have hv : ∃ fs, v = Json.obj fs := by
      rcases extractSpan_shape resp with h | h | ⟨r, h⟩
      · exfalso
        have he : extractSpan resp = String.mk [] := by
          have : extractSpan resp = String.mk (extractSpan resp).data := rfl
          rw [this, h]
        rw [he, parseJson_empty] at hp
        cases hp
      · exfalso
        have he : extractSpan resp = String.mk ['}'] := by
          have : extractSpan resp = String.mk (extractSpan resp).data := rfl
          rw [this, h]
        rw [he, parseJson_closeBrace] at hp
        cases hp
      · exact parseJson_brace h hp
    rcases hv with ⟨fs, rfl⟩
    exact ⟨fs, rfl⟩

lemma invokeTool_step (t : Tool) (n : String) (args : Json) (sc : List Json) (st : Nat) :
    (invokeTool t n args sc st).step = some st := by
  rw [invokeTool]
  split
  · split <;> rfl
  · split <;> rfl
  · split
    · split <;> rfl
    · rfl
    · rfl
  · rfl

lemma nodeToolsMain_ok (resp : String) (reg : List (String × Tool)) (s : GraphState) (st : Nat) :
    ∃ p, _node_tools_main resp reg s st = .ok p ∧ p.step = some st := by
  rw [_node_tools_main]
  split
  · dsimp only
    split
    · exact ⟨_, rfl, rfl⟩
    · exact ⟨_, rfl, invokeTool_step _ _ _ _ _⟩
  · rcases specParsed_obj resp with ⟨fs, hfs⟩
    simp_all

lemma nodeTools_ok (resp : String) (reg : List (String × Tool)) (s : GraphState) :
    ∃ p, _node_tools resp reg s = .ok p ∧ p.step = some (s.step + 1) := by
  rw [_node_tools]
  by_cases h : 10 < s.step + 1
  · rw [if_pos h]
    exact ⟨_, rfl, rfl⟩
  · rw [if_neg h]
    exact nodeToolsMain_ok resp reg s (s.step + 1)

lemma router_tools_step_lt {resp : String} {s : GraphState} (h : router resp s = .tools) :
    s.step < 8 := by
  rw [router] at h
  by_cases h1 : (s.done || !(s.result == "")) = true
  · rw [if_pos h1] at h
    cases h
  · rw [if_neg h1] at h
    by_cases h2 : 8 ≤ s.step
    · rw [if_pos h2] at h
      cases h
    · omega

lemma applyPatch_step_of (s : GraphState) {p : Patch} {st : Nat} (h : p.step = some st) :
    (applyPatch s p).step = st := by
  rw [applyPatch]
  simp [h]

/-- At most `8 - step` further Tools-node entries can follow from any state:
each entry needs the router's `step < 8` check and bumps `step` by one. -/
lemma runLoopF_count_le (fuel : Nat) (o : Nat → String) (reg : List (String × Tool))
    (k : Nat) (s : GraphState) : (runLoopF fuel o reg k s).2 ≤ 8 - s.step := by
  induction fuel generalizing k s with
  | zero => simp [runLoopF]
  | succ f ih =>
    rw [runLoopF]
    cases hr : router (o k) s with
    | end_ => simp
    | write => simp
    | tools =>
      have hlt := router_tools_step_lt hr
      cases ht : _node_tools (o (k + 1)) reg s with
      | error e => simpa using by omega
      | ok p =>
        have hstep : p.step = some (s.step + 1) := by
          rcases nodeTools_ok (o (k + 1)) reg s with ⟨p2, hp2, hs2⟩
          rw [ht] at hp2
          cases hp2
          exact hs2
        have h2 := ih (k + 2) (applyPatch s p)
        rw [applyPatch_step_of s hstep] at h2
        simpa using by omega

/-- The LangGraph recursion-limit sentinel is unreachable whenever the
remaining budget exceeds the (at most `8 - step`) remaining loop length. -/
lemma runLoopF_no_limit (fuel : Nat) (o : Nat → String) (reg : List (String × Tool))
    (k : Nat) (s : GraphState) (hf : 8 - s.step < fuel) :
    ∃ s2, (runLoopF fuel o reg k s).1 = .ok s2 := by
  induction fuel generalizing k s with
  | zero => omega
  | succ f ih =>
    rw [runLoopF]
    cases hr : router (o k) s with
    | end_ => exact ⟨s, rfl⟩
    | write => exact ⟨_, rfl⟩
    | tools =>
      have hlt := router_tools_step_lt hr
      rcases nodeTools_ok (o (k + 1)) reg s with ⟨p, hp, hstep⟩
      rw [hp]
      have hs2 : (applyPatch s p).step = s.step + 1 := applyPatch_step_of s hstep
      have := ih (k + 2) (applyPatch s p) (by omega)
      simpa using this

/-- The final state's step counter never exceeds 8 when starting at or
below 8 (each Tools entry requires `step < 8` at the router). -/
lemma runLoopF_step_le (fuel : Nat) (o : Nat → String) (reg : List (String × Tool))
    (k : Nat) (s : GraphState) (hs : s.step ≤ 8) {s2 : GraphState}
    (h : (runLoopF fuel o reg k s).1 = .ok s2) : s2.step ≤ 8 := by
  induction fuel generalizing k s with
  | zero => simp [runLoopF] at h
  | succ f ih =>
    rw [runLoopF] at h
    cases hr : router (o k) s with
    | end_ =>
      rw [hr] at h
      cases h
      exact hs
    | write =>
      rw [hr] at h
      cases h
      simpa [applyPatch, _node_write] using hs
    | tools =>
      rw [hr] at h
      have hlt := router_tools_step_lt hr
      cases ht : _node_tools (o (k + 1)) reg s with
      | error e =>
        rw [ht] at h
        cases h
      | ok p =>
        rw [ht] at h
        have hstep : p.step = some (s.step + 1) := by
          rcases nodeTools_ok (o (k + 1)) reg s with ⟨p2, hp2, hs2⟩
          rw [ht] at hp2
          cases hp2
          exact hs2
        exact ih (k + 2) (applyPatch s p)
          (by rw [applyPatch_step_of s hstep]; omega) h

lemma pyLen_error {j : Json} {e : String} (h : pyLen j = .error e) : e = "TypeError: len" := by
  cases j with
  | null => cases h; rfl
  | bool b => cases h; rfl
  | num n => cases h; rfl
  | str s => cases h
  | arr es => cases h
  | obj fs => cases h

lemma nodePlan_ok_shape {r : String} {s : GraphState} {p : Patch} (h : _node_plan r s = .ok p) :
    ∃ ps, p = { plan := some ps
                scratch := some (s.scratch ++ [Json.str ("PLAN:\n" ++ ps)]) } := by
  rw [_node_plan] at h
  split at h
  · split at h
    · cases h
      exact ⟨_, rfl⟩
    · cases h
  · cases h

lemma nodePlan_error {r : String} {s : GraphState} {e : String}
    (h : _node_plan r s = .error e) : e = "TypeError: len" := by
  rw [_node_plan] at h
  split at h
  · split at h
    · cases h
    · cases h
      rename_i heq
      exact pyLen_error heq
  · rename_i hne
    rcases planParsed_obj r with ⟨fs, hfs⟩
    exact absurd hfs (hne fs)

/-- Does the loop outcome carry LangGraph's recursion-limit exception? -/
def isRecLimitErr : Except String GraphState → Bool
  | .error e => e == "GraphRecursionError"
  | .ok _ => false

/-- C1: for every task string and every sequence of Model Gateway responses
(including adversarial ones that always choose tools), `run(task)`
terminates — the loop never reaches the recursion-limit sentinel, so it
stops of its own accord after finitely many node transitions — and the
Tools node is entered at most 10 times (in fact at most 8). -/
theorem C1_run_terminates_bounded (oracle : Nat → String) (mcp : List Tool) (task : String) :
    isRecLimitErr (runT oracle mcp task).1 = false ∧ (runT oracle mcp task).2 ≤ 10 := by
  rw [runT]
  cases hp : _node_plan (oracle 0) (initState task) with
  | error e =>
    refine ⟨?_, by simp⟩
    have he := nodePlan_error hp
    subst he
    rfl
  | ok p =>
    rcases nodePlan_ok_shape hp with ⟨ps, rfl⟩
    dsimp only
    have hstep0 : (applyPatch (initState task)
        { plan := some ps
          scratch := some ((initState task).scratch
            ++ [Json.str ("PLAN:\n" ++ ps)]) }).step = 0 := rfl
    constructor
    · rcases runLoopF_no_limit recursionLimit oracle
        (_normalize_tools (ToolsParam.list (mcp ++ [dosleepTool]))) 1 _
        (by rw [hstep0]; norm_num [recursionLimit]) with ⟨s2, h2⟩
      rw [h2]
      rfl
    · have hc := runLoopF_count_le recursionLimit oracle
        (_normalize_tools (ToolsParam.list (mcp ++ [dosleepTool]))) 1
        (applyPatch (initState task)
          { plan := some ps
            scratch := some ((initState task).scratch
              ++ [Json.str ("PLAN:\n" ++ ps)]) })
      rw [hstep0] at hc
      omega

/-- C2: whenever the route decision is taken in a non-terminal state
(`done` false, `result` empty) with `step ≥ 8`, the router returns `write`
— never `tools` — no matter what the model answered, even text containing
"tool". -/
theorem C2_route_ceiling_forces_write (resp : String) (s : GraphState)
    (h1 : s.done = false) (h2 : s.result = "") (h3 : 8 ≤ s.step) :
    router resp s = .write := by
  rw [router, h1, h2]
  rw [if_neg (by decide)]
  rw [if_pos h3]

/-- Witness for C2 at a concrete state and a response that contains
"tool". -/
theorem C2_route_ceiling_forces_write_witness :
    router "use the dosleep tool"
      { task := "t", plan := "", scratch := [], evidence := [],
        result := "", step := 8, done := false } = .write :=
  C2_route_ceiling_forces_write "use the dosleep tool" _ rfl rfl (by norm_num)

/-- C3 (code-bug evidence): the plan response `\x7b"subtasks": 5\x7d` is
well-formed JSON, so the parse fallback does not fire; but the debug-log
f-string evaluates `len(plan.get("subtasks", []))`, and `len(5)` raises
`TypeError`, which propagates out of the Plan node and out of `run()` —
contradicting the claim that the Plan node never raises. -/
theorem C3_plan_raises_on_unsized_subtasks :
    _node_plan "\x7b\"subtasks\": 5\x7d" (initState "t") = .error "TypeError: len" ∧
      run (fun _ => "\x7b\"subtasks\": 5\x7d") [] "t" = .error "TypeError: len" :=
  ⟨rfl, rfl⟩

/-- The oracle of the C8 scenario: a syntactically valid plan, `write` at
the route decision, and a synthesized final answer at the write node. -/
def oracleC8 : Nat → String := fun k =>
  if k = 0 then "\x7b\"subtasks\": [\"answer\"]\x7d"
  else if k = 1 then "write" else "THE ANSWER: 4"

/-- C8: when the model always answers `write` at Route and returns a final
string at Write, `run` returns that string, `step` stays 0, the Tools node
is never entered, and scratch is exactly the PLAN entry followed by the
DRAFT entry. -/
theorem C8_direct_write_scenario :
    (runT oracleC8 [] "what is 2+2").1 = .ok
      { task := "what is 2+2"
        plan := "\x7b\"subtasks\": [\"answer\"]\x7d"
        scratch := [Json.str "PLAN:\n\x7b\"subtasks\": [\"answer\"]\x7d",
          Json.str "DRAFT:\nTHE ANSWER: 4"]
        evidence := []
        result := "THE ANSWER: 4"
        step := 0
        done := false } ∧
      (runT oracleC8 [] "what is 2+2").2 = 0 ∧
      run oracleC8 [] "what is 2+2" = .ok "THE ANSWER: 4" :=
  ⟨rfl, rfl, rfl⟩

/-- The uncooperative model of the C9 scenario: every completion, at every
node, is the dosleep tool spec (which also makes the route decider pick
`tools`, since the text contains "tool"). -/
def oracleC9 : Nat → String :=
  fun _ => "\x7b\"tool\": \"dosleep\", \"args\": \x7b\"seconds\": 1\x7d\x7d"

/-- C9 counterexample: with the uncooperative model the run makes exactly 8
Tools-node entries — there is no 11th entry — and `done` is still false at
the end: the Tools-level `step > 10` check never fires and never forces
`done = true`, contrary to the claim. -/
theorem C9_counterexample :
    (runT oracleC9 [] "task").2 = 8 ∧
      ((runT oracleC9 [] "task").1.map GraphState.done) = .ok false ∧
      ((runT oracleC9 [] "task").1.map GraphState.step) = .ok 8 :=
  ⟨rfl, rfl, rfl⟩

/-- C9 amended: with the uncooperative model that always returns the
dosleep spec, the router's `step ≥ 8` ceiling forces Write right after the
8th Tools entry; the Tools-level `step > 10` branch is never reached, and
the run still returns a string (here the Write node's draft, which is the
model's constant output) rather than looping forever. -/
theorem C9_amended :
    run oracleC9 [] "task" =
      .ok "\x7b\"tool\": \"dosleep\", \"args\": \x7b\"seconds\": 1\x7d\x7d" ∧
      (runT oracleC9 [] "task").2 = 8 :=
  ⟨rfl, rfl⟩

lemma strContains_append_left (x y : String) : strContains (x ++ y) x = true := by
  cases x with
  | mk l1 =>
    cases y with
    | mk l2 =>
      show (l1 ++ l2).tails.any (fun t => l1.isPrefixOf t) = true
      rw [List.any_eq_true]
      refine ⟨l1 ++ l2, ?_, ?_⟩
      · rw [List.mem_tails]
      · rw [List.isPrefixOf_iff_prefix]
        exact List.prefix_append l1 l2

lemma toolErrEntry_contains (n : String) (args : Json) (msg : String) :
    strContains (toolErrEntry n args msg) ("TOOL-ERROR: " ++ n) = true := by
  have h : toolErrEntry n args msg
      = ("TOOL-ERROR: " ++ n) ++ ("(" ++ pyStr args ++ ") -> " ++ msg) := by
    rw [toolErrEntry]
    cases n with
    | mk nd =>
      cases pyStr args with
      | mk ad =>
        cases msg with
        | mk md =>
          show String.mk _ = String.mk _
          simp
  rw [h]
  exact strContains_append_left _ _

lemma invalidTypeEntry_contains (n : String) :
    strContains ("TOOL-ERROR: " ++ n ++ " invalid tool type") ("TOOL-ERROR: " ++ n) = true :=
  strContains_append_left ("TOOL-ERROR: " ++ n) " invalid tool type"

/-- C4: a tool invocation that raises never propagates: whatever the shape
of the resolved tool, the Tools node returns a normal patch whose new
scratch entry is a TOOL-ERROR line naming the failing tool (first
conjunct); the Tools node never returns an exception at all (second
conjunct); and hence no exception ever escapes the route/tools loop (third
conjunct). -/
theorem C4_tool_errors_contained :
    (∀ (t : Tool) (n : String) (args : Json) (sc : List Json) (st : Nat) (msg : String),
        t.behavior args = .raise msg →
        ∃ entry, invokeTool t n args sc st =
            { scratch := some (sc ++ [Json.str entry]), step := some st } ∧
          strContains entry ("TOOL-ERROR: " ++ n) = true) ∧
    (∀ (resp : String) (reg : List (String × Tool)) (s : GraphState),
        ∃ p, _node_tools resp reg s = .ok p) ∧
    (∀ (o : Nat → String) (reg : List (String × Tool)) (k : Nat) (s : GraphState),
        ∃ s2, (runLoopF recursionLimit o reg k s).1 = .ok s2) := by
  refine ⟨?_, ?_, ?_⟩
  · intro t n args sc st msg hb
    rw [invokeTool]
    cases t.shape with
    | ainvokable => exact ⟨toolErrEntry n args msg, by rw [hb], toolErrEntry_contains n args msg⟩
    | invokable => exact ⟨toolErrEntry n args msg, by rw [hb], toolErrEntry_contains n args msg⟩
    | plainCallable => exact ⟨toolErrEntry n args msg, by rw [hb], toolErrEntry_contains n args msg⟩
    | other =>
      exact ⟨"TOOL-ERROR: " ++ n ++ " invalid tool type", rfl, invalidTypeEntry_contains n⟩
  · intro resp reg s
    rcases nodeTools_ok resp reg s with ⟨p, hp, _⟩
    exact ⟨p, hp⟩
  · intro o reg k s
    exact runLoopF_no_limit recursionLimit o reg k s (by norm_num [recursionLimit]; omega)

/-- A concrete always-raising plain callable used by the C4 witness. -/
def crashTool : Tool :=
  { nameAttr := some "boom", shape := .plainCallable, behavior := fun _ => .raise "kaput" }

/-- Witness for C4 at a concrete raising tool. -/
theorem C4_tool_errors_contained_witness :
    ∃ entry, invokeTool crashTool "boom" (Json.obj []) [Json.str "P"] 1 =
        { scratch := some ([Json.str "P"] ++ [Json.str entry]), step := some 1 } ∧
      strContains entry ("TOOL-ERROR: " ++ "boom") = true :=
  C4_tool_errors_contained.1 crashTool "boom" (Json.obj []) [Json.str "P"] 1 "kaput" rfl

/-- C10: the Tools node is only ever entered with `step ≤ 7` (the router
forces Write from `step ≥ 8`), so the incremented counter never exceeds 8
and the Tools-level `step > 10` MAX_STEPS branch is dead: under `step ≤ 7`
the node provably equals its post-guard body. -/
theorem C10_tools_entry_invariant :
    (∀ (resp : String) (s : GraphState), router resp s = .tools → s.step ≤ 7) ∧
    (∀ (resp : String) (reg : List (String × Tool)) (s : GraphState), s.step ≤ 7 →
        _node_tools resp reg s = _node_tools_main resp reg s (s.step + 1) ∧
        ∀ p, _node_tools resp reg s = .ok p → p.step = some (s.step + 1) ∧ s.step + 1 ≤ 8) := by
  constructor
  · intro resp s h
    have := router_tools_step_lt h
    omega
  · intro resp reg s h
    constructor
    · rw [_node_tools]
      rw [if_neg (by omega)]
    · intro p hp
      rcases nodeTools_ok resp reg s with ⟨p2, hp2, hs2⟩
      rw [hp] at hp2
      cases hp2
      exact ⟨hs2, by omega⟩

/-- Witness for C10 at a concrete fresh state (step 0 ≤ 7). -/
theorem C10_tools_entry_invariant_witness :
    _node_tools "x" [] (initState "t") = _node_tools_main "x" [] (initState "t")
        ((initState "t").step + 1) ∧
      ∀ p, _node_tools "x" [] (initState "t") = .ok p →
        p.step = some ((initState "t").step + 1) ∧ (initState "t").step + 1 ≤ 8 :=
  C10_tools_entry_invariant.2 "x" [] (initState "t") (by decide)

lemma rawScratchConcat_ok_no_replace {rv : Json} {acc : List Json} {e : String}
    {l : List Json} (hnl : ∀ items, rv = Json.arr items → items = [])
    (h : rawScratchConcat rv acc e = .ok l) : l = acc ++ [Json.str e] := by
  unfold rawScratchConcat at h
  by_cases ht : pyTruthy rv = true
  · rw [if_pos ht] at h
    cases rv with
    | arr items =>
      rw [hnl items rfl] at ht
      cases ht
    | obj pairs => cases h
    | str t2 => cases h
    | num v => cases h
    | bool b => cases h
    | null => cases h
  · rw [if_neg ht] at h
    cases h
    rfl

lemma invokeTool_scratch {t : Tool} {n : String} {args : Json} {sc : List Json} {st : Nat}
    (hdict : ∀ fs, t.behavior args = .ok (Json.obj fs) →
      ∀ items, (lookupLast fs "scratch").getD Json.null = Json.arr items → items = [])
    {l : List Json} (h : (invokeTool t n args sc st).scratch = some l) : sc <+: l := by
  rw [invokeTool] at h
  split at h
  · split at h
    · cases h
      exact List.prefix_append sc _
    · cases h
      exact List.prefix_append sc _
  · split at h
    · cases h
      exact List.prefix_append sc _
    · cases h
      exact List.prefix_append sc _
  · split at h
    · rename_i fs hb
      split at h
      · rename_i l2 hcat
        cases h
        rw [rawScratchConcat_ok_no_replace (fun items hi => hdict fs hb items hi) hcat]
        exact List.prefix_append sc _
      · cases h
        exact List.prefix_append sc _
    · cases h
      exact List.prefix_append sc _
    · cases h
      exact List.prefix_append sc _
  · cases h
    exact List.prefix_append sc _

lemma nodeToolsMain_scratch {resp : String} {reg : List (String × Tool)} {s : GraphState}
    {st : Nat}
    (hreg : ∀ n t, dictLookup reg n = some t → ∀ a fs, t.behavior a = .ok (Json.obj fs) →
      ∀ items, (lookupLast fs "scratch").getD Json.null = Json.arr items → items = [])
    {p : Patch} {l : List Json} (hp : _node_tools_main resp reg s st = .ok p)
    (hs : p.scratch = some l) : s.scratch <+: l := by
  rw [_node_tools_main] at hp
  split at hp
  · rename_i jv fs0 heq0
    dsimp only at hp
    split at hp
    · cases hp
      cases hs
      rw [List.append_assoc]
      exact List.prefix_append s.scratch _
    · rename_i t hlook
      cases hp
      have hdl : dictLookup reg (pyStrip
          (if pyTruthy ((lookupLast fs0 "tool").getD Json.null) = true then
            pyStr ((lookupLast fs0 "tool").getD Json.null) else "none")) = some t := by
        by_cases hn : pyStrip
            (if pyTruthy ((lookupLast fs0 "tool").getD Json.null) = true then
              pyStr ((lookupLast fs0 "tool").getD Json.null) else "none") = "none"
        · rw [if_pos hn] at hlook
          cases hlook
        · rw [if_neg hn] at hlook
          exact hlook
      have hpre := invokeTool_scratch (hreg _ t hdl _) hs
      exact (List.prefix_append s.scratch _).trans hpre
  · cases hp

/-- A plain callable returning a dict result whose `scratch` field is a
non-empty list of strings — the shape that defeats append-onlyness. -/
def evilTool : Tool :=
  { nameAttr := some "evil", shape := .plainCallable,
    behavior := fun _ => .ok (Json.obj [("scratch", Json.arr [Json.str "X"])]) }

/-- A plain callable returning a dict whose `scratch` value is the truthy
non-string list `[5]`: CPython still concatenates it and the transcript is
replaced by a heterogeneous list. -/
def evilNumTool : Tool :=
  { nameAttr := some "evilnum", shape := .plainCallable,
    behavior := fun _ => .ok (Json.obj [("scratch", Json.arr [Json.num 5])]) }

/-- A state mid-run with one scratch entry already recorded. -/
def stateC5 : GraphState :=
  { task := "t", plan := "", scratch := [Json.str "A"], evidence := [], result := "",
    step := 0, done := false }

/-- C5 counterexample: when a plain callable returns a dict whose raw
`scratch` value is a non-empty list, the Tools node replaces the transcript
(`res.get("scratch") or scratch`) instead of appending: the scratch before
the transition (`["A"]`) is not a prefix of the scratch after it — shown
both for a list of strings and for the raw list `[5]`, which leaves a
heterogeneous transcript. -/
theorem C5_counterexample :
    ((_node_tools "\x7b\"tool\": \"evil\", \"args\": \x7b\x7d\x7d"
        [("evil", evilTool)] stateC5).map Patch.scratch)
      = .ok (some [Json.str "X", Json.str "TOOL-CALL: evil(\x7b\x7d) -> dict result"]) ∧
      (stateC5.scratch.isPrefixOf
        [Json.str "X", Json.str "TOOL-CALL: evil(\x7b\x7d) -> dict result"]) = false ∧
      ((_node_tools "\x7b\"tool\": \"evilnum\", \"args\": \x7b\x7d\x7d"
          [("evilnum", evilNumTool)] stateC5).map Patch.scratch)
        = .ok (some [Json.num 5, Json.str "TOOL-CALL: evilnum(\x7b\x7d) -> dict result"]) ∧
      (stateC5.scratch.isPrefixOf
        [Json.num 5, Json.str "TOOL-CALL: evilnum(\x7b\x7d) -> dict result"]) = false :=
  ⟨rfl, rfl, rfl, rfl⟩

/-- C5 amended: scratch is append-only at the Plan and Write nodes always
(the Route node does not touch the state at all), and at the Tools node
provided no registered tool returns a dict result whose raw `scratch` value
is a non-empty list.  Such a list — of any element types — replaces the
transcript; a truthy non-list `scratch` value instead raises `TypeError`
inside the node, which the `except` at graph.py:187 records as a TOOL-ERROR
entry, still appending. -/
theorem C5_scratch_append_only_amended :
    (∀ (r : String) (s : GraphState) (p : Patch) (l : List Json),
        _node_plan r s = .ok p → p.scratch = some l → s.scratch <+: l) ∧
    (∀ (r : String) (s : GraphState) (l : List Json),
        (_node_write r s).scratch = some l → s.scratch <+: l) ∧
    (∀ (reg : List (String × Tool)),
        (∀ n t, dictLookup reg n = some t → ∀ a fs, t.behavior a = .ok (Json.obj fs) →
          ∀ items, (lookupLast fs "scratch").getD Json.null = Json.arr items → items = []) →
        ∀ (r : String) (s : GraphState) (p : Patch) (l : List Json),
          _node_tools r reg s = .ok p → p.scratch = some l → s.scratch <+: l) := by
  refine ⟨?_, ?_, ?_⟩
  · intro r s p l hp hs
    rcases nodePlan_ok_shape hp with ⟨ps, rfl⟩
    cases hs
    exact List.prefix_append s.scratch _
  · intro r s l hs
    cases hs
    exact List.prefix_append s.scratch _
  · intro reg hreg r s p l hp hs
    rw [_node_tools] at hp
    split at hp
    · cases hp
      cases hs
      exact List.prefix_append s.scratch _
    · exact nodeToolsMain_scratch hreg hp hs

/-- A benign plain callable returning a plain string (no dict, no scratch
override), used by the C5 witness. -/
def echoTool : Tool :=
  { nameAttr := some "echo", shape := .plainCallable,
    behavior := fun _ => .ok (Json.str "done") }

/-- Witness for C5 (amended) at a concrete registry, response and state. -/
theorem C5_scratch_append_only_amended_witness :
    stateC5.scratch <+:
      [Json.str "A", Json.str "STEP-1: Considering tool \x27echo\x27",
        Json.str "TOOL-CALL: echo(\x7b\x7d) -> done"] := by
  have hreg : ∀ n t, dictLookup [("echo", echoTool)] n = some t →
      ∀ a fs, t.behavior a = .ok (Json.obj fs) →
      ∀ items, (lookupLast fs "scratch").getD Json.null = Json.arr items → items = [] := by
    intro n t hnt a fs hb
    rw [dictLookup] at hnt
    by_cases h : "echo" = n
    · rw [if_pos h] at hnt
      cases hnt
      cases hb
    · rw [if_neg h] at hnt
      cases hnt
  exact C5_scratch_append_only_amended.2.2 [("echo", echoTool)] hreg
    "\x7b\"tool\": \"echo\", \"args\": \x7b\x7d\x7d" stateC5 _ _ rfl rfl

lemma nodeToolsMain_resolved {resp : String} {reg : List (String × Tool)} {s : GraphState}
    {st : Nat} {sfs : List (String × Json)} {n : String} {t : Tool} {a : Json}
    (hparse : parseJson (extractSpan resp) = some (Json.obj sfs))
    (htool : lookupLast sfs "tool" = some (Json.str n))
    (hstrip : pyStrip n = n) (hne : n ≠ "") (hnone : n ≠ "none")
    (hlook : dictLookup reg n = some t)
    (hargs : lookupLast sfs "args" = some a) (hta : pyTruthy a = true) :
    _node_tools_main resp reg s st
      = .ok (invokeTool t n a (s.scratch ++ [Json.str (stepEntry st n)]) st) := by
  rw [_node_tools_main]
  have h1 : (parseJson (extractSpan resp)).getD specFallback = Json.obj sfs := by
    rw [hparse]
    rfl
  rw [h1]
  dsimp only
  rw [htool, hargs]
  have ht1 : pyTruthy (Json.str n) = true := by
    simp [pyTruthy, hne]
  simp only [Option.getD_some]
  rw [ht1, hta]
  simp only [eq_self_iff_true, if_true]
  simp only [pyStr]
  rw [hstrip]
  rw [if_neg hnone, hlook]

/-- An asynchronous (LangChain-style) tool whose result is a dict carrying
recognised Task State fields. -/
def asyncDictTool : Tool :=
  { nameAttr := some "atool", shape := .ainvokable,
    behavior := fun _ =>
      .ok (Json.obj [("evidence", Json.arr [Json.str "E"]), ("done", Json.bool true)]) }

/-- C6 counterexample: an async-invocable tool whose successful result is a
structured patch with recognised fields (`evidence`, `done`).  The Tools
node merely stringifies the dict into the TOOL-CALL entry; the fields are
not merged into Task State (`evidence` and `done` stay untouched in the
returned patch), contrary to the claim that the merge happens regardless of
the tool's shape. -/
theorem C6_counterexample :
    _node_tools "\x7b\"tool\": \"atool\", \"args\": \x7b\x7d\x7d"
        [("atool", asyncDictTool)] (initState "t") = .ok
      { scratch := some [Json.str "STEP-1: Considering tool \x27atool\x27",
          Json.str
            "TOOL-CALL: atool(\x7b\x7d) -> \x7b\x27evidence\x27: [\x27E\x27], \x27done\x27: True\x7d"]
        step := some 1 } ∧
      ((_node_tools "\x7b\"tool\": \"atool\", \"args\": \x7b\x7d\x7d"
          [("atool", asyncDictTool)] (initState "t")).map Patch.evidence) = .ok none ∧
      ((_node_tools "\x7b\"tool\": \"atool\", \"args\": \x7b\x7d\x7d"
          [("atool", asyncDictTool)] (initState "t")).map Patch.done) = .ok none :=
  ⟨rfl, rfl, rfl⟩

/-- C6 amended: for every registered tool that resolves and invokes
successfully, an async or sync invocable always has its result stringified
into a TOOL-CALL entry with no other state field touched; a plain
callable's dict result is merged into Task State together with a TOOL-CALL
entry exactly when the raw transcript update (`rawScratchConcat`) succeeds,
while a truthy non-list `scratch` value makes that update raise
`TypeError`, recorded as a TOOL-ERROR entry with nothing merged. -/
theorem C6_tool_result_merge_amended :
    ∀ (reg : List (String × Tool)) (s : GraphState) (resp : String)
      (sfs : List (String × Json)) (n : String) (t : Tool) (a : Json) (r : Json),
      s.step + 1 ≤ 10 →
      parseJson (extractSpan resp) = some (Json.obj sfs) →
      lookupLast sfs "tool" = some (Json.str n) →
      pyStrip n = n → n ≠ "" → n ≠ "none" →
      dictLookup reg n = some t →
      lookupLast sfs "args" = some a → pyTruthy a = true →
      t.behavior a = .ok r →
      ((t.shape = .ainvokable ∨ t.shape = .invokable →
          _node_tools resp reg s = .ok
            { scratch := some ((s.scratch ++ [Json.str (stepEntry (s.step + 1) n)])
                ++ [Json.str (toolCallEntry n a (pyStr r))])
              step := some (s.step + 1) }) ∧
        (t.shape = .plainCallable → ∀ fs, r = Json.obj fs →
          (∀ l, rawScratchConcat ((lookupLast fs "scratch").getD Json.null)
              (s.scratch ++ [Json.str (stepEntry (s.step + 1) n)]) (dictCallEntry n a)
                = .ok l →
            _node_tools resp reg s = .ok
              { patchOfObj fs with scratch := some l, step := some (s.step + 1) }) ∧
          (∀ e, rawScratchConcat ((lookupLast fs "scratch").getD Json.null)
              (s.scratch ++ [Json.str (stepEntry (s.step + 1) n)]) (dictCallEntry n a)
                = .error e →
            _node_tools resp reg s = .ok
              { scratch := some ((s.scratch ++ [Json.str (stepEntry (s.step + 1) n)])
                  ++ [Json.str (toolErrEntry n a e)])
                step := some (s.step + 1) }))) := by
  intro reg s resp sfs n t a r hst hparse htool hstrip hne hnone hlook hargs hta hb
  have hnode : _node_tools resp reg s
      = .ok (invokeTool t n a (s.scratch ++ [Json.str (stepEntry (s.step + 1) n)])
          (s.step + 1)) := by
    rw [_node_tools]
    rw [if_neg (by omega)]
    exact nodeToolsMain_resolved hparse htool hstrip hne hnone hlook hargs hta
  refine ⟨?_, ?_⟩
  · intro hsh
    rw [hnode, invokeTool]
    rcases hsh with hsh | hsh
    · rw [hsh, hb]
    · rw [hsh, hb]
  · intro hsh fs hr
    constructor
    · intro l hcat
      rw [hnode, invokeTool, hsh, hb, hr]
      dsimp only
      rw [hcat]
    · intro e hcat
      rw [hnode, invokeTool, hsh, hb, hr]
      dsimp only
      rw [hcat]

/-- A plain callable whose dict result carries the truthy non-list scratch
value `"abc"` (and a recognised `done` field): CPython raises `TypeError`
at the transcript concatenation and the `except` at graph.py:187 records a
TOOL-ERROR with nothing merged. -/
def strScratchTool : Tool :=
  { nameAttr := some "badscratch", shape := .plainCallable,
    behavior := fun _ =>
      .ok (Json.obj [("scratch", Json.str "abc"), ("done", Json.bool true)]) }

/-- Witness for C6 (amended): the async `dosleep` tool exercises the
stringify-only branch, and `strScratchTool` exercises the caught-TypeError
branch (TOOL-ERROR, no merge). -/
theorem C6_tool_result_merge_amended_witness :
    (_node_tools "\x7b\"tool\": \"dosleep\", \"args\": \x7b\"seconds\": 1\x7d\x7d"
        [("dosleep", dosleepTool)] (initState "t") = .ok
      { scratch := some (((initState "t").scratch ++ [Json.str (stepEntry 1 "dosleep")])
          ++ [Json.str (toolCallEntry "dosleep" (Json.obj [("seconds", Json.num 1)])
                (pyStr (Json.str "Slept for 1 seconds")))])
        step := some 1 }) ∧
    (_node_tools "\x7b\"tool\": \"badscratch\", \"args\": \x7b\"x\": 1\x7d\x7d"
        [("badscratch", strScratchTool)] (initState "t") = .ok
      { scratch := some (((initState "t").scratch ++ [Json.str (stepEntry 1 "badscratch")])
          ++ [Json.str (toolErrEntry "badscratch" (Json.obj [("x", Json.num 1)])
                "TypeError: can only concatenate list")])
        step := some 1 }) :=
  ⟨(C6_tool_result_merge_amended [("dosleep", dosleepTool)] (initState "t")
      "\x7b\"tool\": \"dosleep\", \"args\": \x7b\"seconds\": 1\x7d\x7d"
      [("tool", Json.str "dosleep"), ("args", Json.obj [("seconds", Json.num 1)])]
      "dosleep" dosleepTool (Json.obj [("seconds", Json.num 1)])
      (Json.str "Slept for 1 seconds")
      (by decide) rfl rfl rfl (by decide) (by decide) rfl rfl rfl rfl).1 (Or.inl rfl),
   ((C6_tool_result_merge_amended [("badscratch", strScratchTool)] (initState "t")
      "\x7b\"tool\": \"badscratch\", \"args\": \x7b\"x\": 1\x7d\x7d"
      [("tool", Json.str "badscratch"), ("args", Json.obj [("x", Json.num 1)])]
      "badscratch" strScratchTool (Json.obj [("x", Json.num 1)])
      (Json.obj [("scratch", Json.str "abc"), ("done", Json.bool true)])
      (by decide) rfl rfl rfl (by decide) (by decide) rfl rfl rfl rfl).2 rfl
      [("scratch", Json.str "abc"), ("done", Json.bool true)] rfl).2
      "TypeError: can only concatenate list" rfl⟩

/-- A plain function handle: no `name` attribute, but (like every Python
function) a `__name__`. -/
def plainFnTool : Tool :=
  { nameAttr := none, dunderName := some "f", shape := .plainCallable,
    behavior := fun _ => .ok Json.null }

/-- C7 counterexample: a list entry with no `name` attribute but with
`__name__ = "f"` is registered under `"f"`, not under the positional
synthetic name `tool_0` the claim prescribes — the claim omits the
`__name__` fallback that sits between the `name` attribute and
`tool_<index>`. -/
theorem C7_counterexample :
    ((_normalize_tools (ToolsParam.list [plainFnTool])).map Prod.fst = ["f"]) ∧
      (((_normalize_tools (ToolsParam.list [plainFnTool])).map Prod.fst == ["tool_0"]) = false) :=
  ⟨rfl, rfl⟩

/-- Specification-side description of list normalisation, written after the
spec's words: each name maps to the handle at the LAST list position
producing that name (deterministic last-write-wins), where a position's
name is its `name` attribute if present and non-empty, else its `__name__`
if present and non-empty, else `tool_<index>`. -/
def lastNamed (i : Nat) (ts : List Tool) (n : String) : Option Tool :=
  match ts with
  | [] => none
  | t :: rest =>
    match lastNamed (i + 1) rest n with
    | some u => some u
    | none => if toolRegName t i = n then some t else none

lemma dictInsert_lookup (m : List (String × Tool)) (k : String) (v : Tool) (q : String) :
    dictLookup (dictInsert m k v) q = if k = q then some v else dictLookup m q := by
  induction m with
  | nil => rfl
  | cons hd rest ih =>
    obtain ⟨k2, v2⟩ := hd
    by_cases h2 : k2 = k
    · subst h2
      simp only [dictInsert, if_pos rfl]
      by_cases hq : k2 = q
      · simp [dictLookup, hq]
      · simp [dictLookup, hq]
    · simp only [dictInsert, if_neg h2]
      by_cases hq2 : k2 = q
      · have hkq : ¬(k = q) := fun hh => h2 (hq2.trans hh.symm)
        simp [dictLookup, hq2, hkq]
      · simp [dictLookup, hq2, ih]

lemma normListAux_lookup (ts : List Tool) (out : List (String × Tool)) (i : Nat) (n : String) :
    dictLookup (normListAux out i ts) n =
      match lastNamed i ts n with
      | some u => some u
      | none => dictLookup out n := by
  induction ts generalizing out i with
  | nil => rfl
  | cons t rest ih =>
    rw [normListAux, ih, lastNamed]
    cases lastNamed (i + 1) rest n with
    | some u => rfl
    | none =>
      rw [dictInsert_lookup]
      by_cases hn : toolRegName t i = n
      · rw [if_pos hn, if_pos hn]
      · rw [if_neg hn, if_neg hn]

/-- C7 amended: `_normalize_tools` accepts a mapping (returned as is), a
single handle, or a list; a list entry's registry name is its `name`
attribute when present and non-empty, else its `__name__` when present and
non-empty, else the positional `tool_<index>` (`toolRegName`); and the
resulting registry is deterministic last-write-wins — looking up a name
yields the handle at the last list position that produced that name, with
duplicate registration never a crash. -/
theorem C7_normalize_amended :
    (∀ m, _normalize_tools (ToolsParam.dict m) = m) ∧
      (∀ t, _normalize_tools (ToolsParam.single t)
        = [(pyOrS t.nameAttr (pyOrS t.dunderName "tool"), t)]) ∧
      (∀ ts n, dictLookup (_normalize_tools (ToolsParam.list ts)) n = lastNamed 0 ts n) := by
  refine ⟨fun m => rfl, fun t => rfl, fun ts n => ?_⟩
  rw [_normalize_tools, normListAux_lookup]
  cases lastNamed 0 ts n with
  | some u => rfl
  | none => rfl
